import Mathlib

/-!
Verification of the login-form attempt state machine.

The program under study is a client-side login widget. Its core is the
function `mockLogin` together with two module-level mutable variables
`attemptCounter` and `lockedUntil`, a fixed credential directory
`DEMO_DB`, and a simulated network delay. We embed that core shallowly:

* the two module-level variables become the explicit state `TrackerState`,
  threaded through `mockLogin`;
* the two clock reads (`Date.now()` at the lock check and `Date.now()`
  at the lock trigger) become the explicit parameters `now` and
  `lockNow`;
* `Math.random()` used for the token becomes an explicit draw: a pair
  `(n, k)` denoting the number `k / 36 ^ n` in `[0, 1)` (every IEEE
  double produced by `Math.random()` is dyadic, hence of this form),
  and `Number.prototype.toString(36)` is modelled as the exact base-36
  fraction expansion followed by `slice(2)`, which drops the leading
  `"0."` (and turns `"0"` into `""` when the draw is zero);
* the randomized delay `700 + Math.random() * 500` becomes `delayMs`
  over `ℚ`, and the control-flow order of one attempt (sleep, clock
  read, lock check, credential check) is recorded by `mockLoginEvents`.
-/

namespace LoginForm

/-- State of the attempt tracker: the module-level variables
`attemptCounter` and `lockedUntil` of the source (both start at 0). -/
structure TrackerState where
  attemptCounter : Nat
  lockedUntil : Nat
  deriving DecidableEq, Repr

/-- Failure codes of the source type `LoginResponse`. -/
inductive Code where
  | INVALID_CREDENTIALS
  | LOCKED
  deriving DecidableEq, Repr

/-- The source union type `LoginResponse`:
`{ ok: true; token }` or `{ ok: false; code; message }`. -/
inductive LoginResponse where
  | ok (token : String)
  | err (code : Code) (message : String)
  deriving DecidableEq, Repr

/-- A credential directory (`DemoDB` in the source): a map from email
key to stored password. -/
def DemoDB := String → Option String

/-- The source directory `DEMO_DB = { "mock@email.com": { password: "Password123" } }`. -/
def DEMO_DB : DemoDB := fun s =>
  if s = "mock@email.com" then some "Password123" else none

/-- JavaScript `email.toLowerCase()`: per-character lowercasing
(restricted, like `Char.toLower`, to the basic latin letters that
occur in the directory keys). -/
def toLowerCase (s : String) : String :=
  String.mk (s.data.map Char.toLower)

/-- Lines 38-39 of the source:
`const record = DEMO_DB[email.toLowerCase()];`
`const correct = record && record.password === password;` -/
def credCorrect (db : DemoDB) (email password : String) : Bool :=
  match db (toLowerCase email) with
  | some stored => stored == password
  | none => false

/-! ### Token generation

`Math.random().toString(36).slice(2)`. A draw is a pair `(n, k)`
denoting the number `k / 36 ^ n`. `toString(36)` of `0` is `"0"`;
of a number in `(0, 1)` it is `"0."` followed by the exact base-36
fraction digits with no trailing zero digit. `slice(2)` drops the
first two characters. -/

/-- JavaScript digit characters `0-9a-z` for base 36. -/
def digitChar36 (d : Nat) : Char :=
  if d < 10 then Char.ofNat (48 + d) else Char.ofNat (87 + d)

/-- The `n` base-36 fraction digits of `k / 36 ^ n`, most significant
first (little pad of leading zeros included, as `toString(36)` prints
every fraction position down to the last nonzero digit). -/
def fracDigits : Nat → Nat → List Nat
  | 0, _ => []
  | n + 1, k => fracDigits n (k / 36) ++ [k % 36]

/-- Decode a big-endian list of base-36 digits back to the numerator
it came from (used only to reason about `fracDigits`). -/
def ofDigits36 (l : List Nat) : Nat :=
  l.foldl (fun a d => a * 36 + d) 0

/-- Strip trailing zero digits: `k / 36 ^ n` printed exactly ends at
its last nonzero digit, so the representation `(n, k)` is normalized
by dividing out factors of 36. -/
def normDraw : Nat → Nat → Nat × Nat
  | 0, k => (0, k)
  | n + 1, k => if k % 36 = 0 then normDraw n (k / 36) else (n + 1, k)

/-- The value in `[0, 1)` denoted by a draw `(n, k)`, namely `k / 36 ^ n`. -/
def drawVal (d : Nat × Nat) : ℚ := (d.2 : ℚ) / (36 : ℚ) ^ d.1

/-- The token `Math.random().toString(36).slice(2)` produced from a
draw: the exact base-36 fraction digits of the draw's value, `""`
when the value is `0` (since `(0).toString(36) = "0"` and
`"0".slice(2) = ""`). -/
def tokenOfDraw (d : Nat × Nat) : String :=
  let p := normDraw d.1 d.2
  if p.2 = 0 then "" else String.mk ((fracDigits p.1 p.2).map digitChar36)

/-! ### The login attempt itself -/

/-- Message of the already-locked branch (source line 34), with
`remain = Math.ceil((lockedUntil - now) / 1000)`. -/
def alreadyLockedMsg (remain : Nat) : String :=
  "Too many attempts. Try again in " ++ toString remain ++ "s."

/-- Message of the lock-trigger branch (source line 50). -/
def newlyLockedMsg : String :=
  "Account temporarily locked due to repeated failures. Please wait 30 seconds."

/-- Message of the plain invalid-credentials branch (source line 56). -/
def invalidCredsMsg : String := "Email or password is incorrect."

/-- The source `mockLogin`, lines 22-63, as a pure state-passing
function. `now` is the `Date.now()` of line 28 (read after the
simulated delay); `lockNow` is the second `Date.now()` of line 44
(read when the lock triggers). `draw` feeds the token generator.
`Math.ceil((lockedUntil - now) / 1000)` becomes the `Nat` ceiling
`(lockedUntil - now + 999) / 1000`. -/
def mockLogin (db : DemoDB) (email password : String) (now lockNow : Nat)
    (draw : Nat × Nat) (st : TrackerState) : LoginResponse × TrackerState :=
  if now < st.lockedUntil then
    let remain := (st.lockedUntil - now + 999) / 1000
    (LoginResponse.err Code.LOCKED (alreadyLockedMsg remain), st)
  else
    let correct := credCorrect db email password
    if correct = false then
      let ac := st.attemptCounter + 1
      if 5 ≤ ac then
        (LoginResponse.err Code.LOCKED newlyLockedMsg,
          { attemptCounter := 0, lockedUntil := lockNow + 30000 })
      else
        (LoginResponse.err Code.INVALID_CREDENTIALS invalidCredsMsg,
          { st with attemptCounter := ac })
    else
      (LoginResponse.ok (tokenOfDraw draw), { st with attemptCounter := 0 })

/-- Lock test of line 29 (and the spec's `isLocked(now)`):
true iff `now < lockedUntil`. -/
def isLocked (now : Nat) (st : TrackerState) : Bool :=
  now < st.lockedUntil

/-! ### Delay and control-flow order -/

/-- The simulated latency of line 26: `700 + Math.random() * 500`
milliseconds, with the random draw `r ∈ [0, 1)` explicit. -/
def delayMs (r : ℚ) : ℚ := 700 + r * 500

/-- Observable steps of one `mockLogin` call, in source order. -/
inductive Event where
  | sleepFor (ms : ℚ)
  | readClock
  | checkLock
  | checkCredentials (key : String)
  deriving DecidableEq, Repr

/-- The sequence of steps one call performs, read off the source:
`await sleep(700 + Math.random() * 500)` (line 26), then
`Date.now()` (line 28), then the lock check (line 29), and only when
the state is not locked the directory lookup under the lower-cased
email (line 38). -/
def mockLoginEvents (r : ℚ) (email : String) (now : Nat)
    (st : TrackerState) : List Event :=
  Event.sleepFor (delayMs r) :: Event.readClock :: Event.checkLock ::
    (if now < st.lockedUntil then []
     else [Event.checkCredentials (toLowerCase email)])

/-! ### Theorems -/

/-- C2: an attempt made while locked (`now < lockedUntil` at the
post-delay clock reading) returns the `LOCKED` failure carrying the
message with the ceiling of the remaining time in seconds, and leaves
both `consecutiveFailures` and `lockedUntil` unchanged, regardless of
the submitted credentials. -/
theorem locked_attempt_rejected_state_unchanged
    (db : DemoDB) (email password : String) (now lockNow : Nat)
    (draw : Nat × Nat) (st : TrackerState)
    (h : now < st.lockedUntil) :
    mockLogin db email password now lockNow draw st =
      (LoginResponse.err Code.LOCKED
        (alreadyLockedMsg ((st.lockedUntil - now + 999) / 1000)), st) := by
  simp [mockLogin, h]

/-- Witness for C2: with `lockedUntil = 30000` and `now = 500`, any
attempt (here even one with correct credentials) is rejected with the
30-second already-locked message and the state is untouched. -/
theorem locked_attempt_rejected_state_unchanged_witness :
    (500 : Nat) < (TrackerState.mk 3 30000).lockedUntil ∧
      mockLogin DEMO_DB "mock@email.com" "Password123" 500 501 (0, 0)
          ⟨3, 30000⟩ =
        (LoginResponse.err Code.LOCKED (alreadyLockedMsg 30), ⟨3, 30000⟩) :=
  ⟨by decide,
    locked_attempt_rejected_state_unchanged DEMO_DB "mock@email.com"
      "Password123" 500 501 (0, 0) ⟨3, 30000⟩ (by decide)⟩

/-- C6: an attempt that takes the correct-credentials path leaves
`lockedUntil` exactly as it was; the whole post-state is the pre-state
with only `consecutiveFailures` set to 0. -/
theorem success_does_not_clear_lock
    (db : DemoDB) (email password : String) (now lockNow : Nat)
    (draw : Nat × Nat) (st : TrackerState)
    (hnl : st.lockedUntil ≤ now)
    (hc : credCorrect db email password = true) :
    (mockLogin db email password now lockNow draw st).2.lockedUntil =
        st.lockedUntil ∧
      (mockLogin db email password now lockNow draw st).2 =
        { st with attemptCounter := 0 } := by
  have h : ¬ now < st.lockedUntil := Nat.not_lt.mpr hnl
  simp [mockLogin, h, hc]

/-- Witness for C6: a successful attempt against the demo directory
with a live (future) `lockedUntil` of 77 keeps `lockedUntil = 77`. -/
theorem success_does_not_clear_lock_witness :
    (TrackerState.mk 2 77).lockedUntil ≤ 100 ∧
      credCorrect DEMO_DB "mock@email.com" "Password123" = true ∧
      (mockLogin DEMO_DB "mock@email.com" "Password123" 100 101 (1, 1)
            ⟨2, 77⟩).2.lockedUntil = 77 :=
  ⟨by decide, by decide,
    (success_does_not_clear_lock DEMO_DB "mock@email.com" "Password123"
        100 101 (1, 1) ⟨2, 77⟩ (by decide) (by decide)).1⟩

/-- C9: the at-rest invariant `consecutiveFailures < 5` is preserved
by every call: the call that would raise the counter to the threshold
5 resets it to 0 in the same step. -/
theorem counter_stays_below_threshold
    (db : DemoDB) (email password : String) (now lockNow : Nat)
    (draw : Nat × Nat) (st : TrackerState)
    (h : st.attemptCounter < 5) :
    (mockLogin db email password now lockNow draw st).2.attemptCounter < 5 := by
  by_cases h1 : now < st.lockedUntil
  · simpa [mockLogin, h1] using h
  · by_cases h2 : credCorrect db email password = false
    · by_cases h3 : 5 ≤ st.attemptCounter + 1
      · simp [mockLogin, h1, h2, h3]
      · simp [mockLogin, h1, h2, h3]
        omega
    · simp [mockLogin, h1, h2]

/-- Witness for C9: starting from the largest at-rest counter value 4,
a wrong attempt leaves the counter below 5 (it resets to 0). -/
theorem counter_stays_below_threshold_witness :
    (TrackerState.mk 4 0).attemptCounter < 5 ∧
      (mockLogin DEMO_DB "x@y.zz" "nope" 9 9 (0, 0)
          ⟨4, 0⟩).2.attemptCounter < 5 :=
  ⟨by decide,
    counter_stays_below_threshold DEMO_DB "x@y.zz" "nope" 9 9 (0, 0)
      ⟨4, 0⟩ (by decide)⟩

/-- C10: `lockedUntil` never decreases across a call (given the clock
itself is monotone between the two `Date.now()` reads of one call),
and the lock-trigger branch strictly increases it, because that branch
runs only when `lockedUntil ≤ now ≤ lockNow < lockNow + 30000`. -/
theorem lockedUntil_monotone
    (db : DemoDB) (email password : String) (now lockNow : Nat)
    (draw : Nat × Nat) (st : TrackerState)
    (hclk : now ≤ lockNow) :
    st.lockedUntil ≤
        (mockLogin db email password now lockNow draw st).2.lockedUntil ∧
      (st.lockedUntil ≤ now → credCorrect db email password = false →
        5 ≤ st.attemptCounter + 1 →
        st.lockedUntil <
          (mockLogin db email password now lockNow draw st).2.lockedUntil) := by
  by_cases h1 : now < st.lockedUntil
  · refine ⟨by simp [mockLogin, h1], fun hle _ _ => absurd (Nat.lt_of_lt_of_le h1 hle)
      (Nat.lt_irrefl _)⟩
  · by_cases h2 : credCorrect db email password = false
    · by_cases h3 : 5 ≤ st.attemptCounter + 1
      · have hup : st.lockedUntil ≤ now := Nat.not_lt.mp h1
        refine ⟨?_, fun _ _ _ => ?_⟩ <;> simp [mockLogin, h1, h2, h3] <;> omega
      · refine ⟨by simp [mockLogin, h1, h2, h3], fun _ _ hth => absurd hth h3⟩
    · refine ⟨by simp [mockLogin, h1, h2], fun _ hcno _ => ?_⟩
      rw [hcno] at h2
      exact absurd rfl h2

/-- Two strings with different first characters differ. -/
theorem ne_of_head_ne (s t : String)
    (h : s.data.head? ≠ t.data.head?) : s ≠ t :=
  fun he => h (by rw [he])

/-- The already-locked message always starts with `'T'`, whatever the
remaining-seconds count is. -/
theorem alreadyLockedMsg_head (r : Nat) :
    (alreadyLockedMsg r).data.head? = some 'T' := by
  have hT : ("Too many attempts. Try again in ").data =
      'T' :: ("oo many attempts. Try again in ").data := rfl
  simp [alreadyLockedMsg, hT]

/-- The already-locked message is never the newly-locked message. -/
theorem alreadyLockedMsg_ne_newlyLockedMsg (r : Nat) :
    alreadyLockedMsg r ≠ newlyLockedMsg := by
  apply ne_of_head_ne
  rw [alreadyLockedMsg_head]
  decide

/-- The already-locked message is never the invalid-credentials message. -/
theorem alreadyLockedMsg_ne_invalidCredsMsg (r : Nat) :
    alreadyLockedMsg r ≠ invalidCredsMsg := by
  apply ne_of_head_ne
  rw [alreadyLockedMsg_head]
  decide

/-- Witness for C10: a fifth consecutive failure at `now = 10`,
`lockNow = 12`, starting from `lockedUntil = 3`, moves `lockedUntil`
strictly up (to 30012). -/
theorem lockedUntil_monotone_witness :
    (10 : Nat) ≤ 12 ∧
      (TrackerState.mk 4 3).lockedUntil <
        (mockLogin DEMO_DB "x@y.zz" "nope" 10 12 (0, 0)
            ⟨4, 3⟩).2.lockedUntil :=
  ⟨by decide,
    (lockedUntil_monotone DEMO_DB "x@y.zz" "nope" 10 12 (0, 0) ⟨4, 3⟩
        (by decide)).2 (by decide) (by decide) (by decide)⟩

/-- C4: credentials are judged correct iff the directory has an entry
under the lower-cased email whose password equals the given password
exactly; consequently an email differing from a (lower-cased, as the
directory's data model requires) stored key only by letter case still
matches, while a password differing from the stored password only by
letter case does not. -/
theorem email_case_insensitive_password_case_sensitive
    (db : DemoDB) (email password : String) :
    (credCorrect db email password = true ↔
      ∃ stored, db (toLowerCase email) = some stored ∧ stored = password) ∧
    (∀ key stored, db key = some stored → toLowerCase key = key →
      toLowerCase email = toLowerCase key →
      credCorrect db email stored = true) ∧
    (∀ stored, db (toLowerCase email) = some stored →
      toLowerCase password = toLowerCase stored → password ≠ stored →
      credCorrect db email password = false) := by
  refine ⟨?_, ?_, ?_⟩
  · unfold credCorrect
    cases hdb : db (toLowerCase email) with
    | none => simp
    | some stored => simp [beq_iff_eq]
  · intro key stored hdb hkey hcase
    unfold credCorrect
    rw [hcase, hkey, hdb]
    simp
  · intro stored hdb _ hne
    unfold credCorrect
    rw [hdb]
    simp
    exact fun he => absurd he.symm hne

/-- Witness for C4: `MOCK@EMAIL.COM` matches the stored lower-case key
`mock@email.com`, while `PASSWORD123` does not match the stored
password `Password123`. -/
theorem email_case_insensitive_password_case_sensitive_witness :
    credCorrect DEMO_DB "MOCK@EMAIL.COM" "Password123" = true ∧
      credCorrect DEMO_DB "mock@email.com" "PASSWORD123" = false :=
  ⟨(email_case_insensitive_password_case_sensitive DEMO_DB "MOCK@EMAIL.COM"
        "Password123").2.1 "mock@email.com" "Password123"
      (by decide) (by decide) (by decide),
    (email_case_insensitive_password_case_sensitive DEMO_DB "mock@email.com"
        "PASSWORD123").2.2 "Password123" (by decide) (by decide) (by decide)⟩

/-- C5 counterexample: both the already-locked failure and the
newly-triggered-lock failure carry the same typed kind `LOCKED` with
different messages, so the three failure messages are not pairwise
distinguishable by the typed kind alone. -/
theorem locked_kind_shared_between_messages :
    (mockLogin DEMO_DB "x@y.zz" "nope" 0 0 (0, 0) ⟨0, 1000⟩).1 =
        LoginResponse.err Code.LOCKED (alreadyLockedMsg 1) ∧
      (mockLogin DEMO_DB "x@y.zz" "nope" 0 7 (0, 0) ⟨4, 0⟩).1 =
        LoginResponse.err Code.LOCKED newlyLockedMsg ∧
      alreadyLockedMsg 1 ≠ newlyLockedMsg := by decide

/-- C5 (amended): every call returns a typed outcome — `ok` or `err`
with code `INVALID_CREDENTIALS` or `LOCKED`, never anything else — the
invalid-credentials failure is distinguishable from both locked
failures by the typed code alone, and the two locked messages are
distinct strings (their codes coincide, so telling them apart does
need the message). -/
theorem outcomes_typed_and_distinguishable
    (db : DemoDB) (email password : String) (now lockNow : Nat)
    (draw : Nat × Nat) (st : TrackerState) :
    ((∃ t, (mockLogin db email password now lockNow draw st).1 =
        LoginResponse.ok t) ∨
      (∃ m, (mockLogin db email password now lockNow draw st).1 =
        LoginResponse.err Code.INVALID_CREDENTIALS m) ∨
      (∃ m, (mockLogin db email password now lockNow draw st).1 =
        LoginResponse.err Code.LOCKED m)) ∧
    (∀ m, (mockLogin db email password now lockNow draw st).1 =
        LoginResponse.err Code.INVALID_CREDENTIALS m → m = invalidCredsMsg) ∧
    (∀ m, (mockLogin db email password now lockNow draw st).1 =
        LoginResponse.err Code.LOCKED m → m ≠ invalidCredsMsg) ∧
    (∀ remain, alreadyLockedMsg remain ≠ newlyLockedMsg) := by
  refine ⟨?_, ?_, ?_, alreadyLockedMsg_ne_newlyLockedMsg⟩ <;>
    by_cases h1 : now < st.lockedUntil
  · exact Or.inr (Or.inr
      ⟨alreadyLockedMsg ((st.lockedUntil - now + 999) / 1000),
        by simp [mockLogin, h1]⟩)
  · by_cases h2 : credCorrect db email password = false
    · by_cases h3 : 5 ≤ st.attemptCounter + 1
      · exact Or.inr (Or.inr ⟨newlyLockedMsg, by simp [mockLogin, h1, h2, h3]⟩)
      · exact Or.inr (Or.inl ⟨invalidCredsMsg, by simp [mockLogin, h1, h2, h3]⟩)
    · exact Or.inl ⟨tokenOfDraw draw, by simp [mockLogin, h1, h2]⟩
  · intro m hm
    simp [mockLogin, h1] at hm
  · intro m hm
    by_cases h2 : credCorrect db email password = false
    · by_cases h3 : 5 ≤ st.attemptCounter + 1
      · simp [mockLogin, h1, h2, h3] at hm
      · simp [mockLogin, h1, h2, h3] at hm
        exact hm.symm
    · simp [mockLogin, h1, h2] at hm
  · intro m hm
    simp [mockLogin, h1] at hm
    rw [← hm]
    exact alreadyLockedMsg_ne_invalidCredsMsg _
  · intro m hm
    by_cases h2 : credCorrect db email password = false
    · by_cases h3 : 5 ≤ st.attemptCounter + 1
      · simp [mockLogin, h1, h2, h3] at hm
        rw [← hm]
        decide
      · simp [mockLogin, h1, h2, h3] at hm
    · simp [mockLogin, h1, h2] at hm

/-- Witness for C5 (amended): at a concrete newly-locking call the
returned message is not the invalid-credentials message, and the two
locked messages at one remaining second differ. -/
theorem outcomes_typed_and_distinguishable_witness :
    newlyLockedMsg ≠ invalidCredsMsg ∧
      alreadyLockedMsg 1 ≠ newlyLockedMsg :=
  ⟨(outcomes_typed_and_distinguishable DEMO_DB "x@y.zz" "nope" 0 7 (0, 0)
        ⟨4, 0⟩).2.2.1 newlyLockedMsg (by decide),
    (outcomes_typed_and_distinguishable DEMO_DB "x@y.zz" "nope" 0 7 (0, 0)
        ⟨4, 0⟩).2.2.2 1⟩

/-- C7: for a random draw `r ∈ [0, 1)` the simulated latency
`700 + r * 500` lies in `[700, 1200)` milliseconds, and in the step
sequence of one call the sleep comes first, strictly before the lock
check and (when the state is not locked) the credential lookup. -/
theorem delay_in_range_and_awaited_first
    (r : ℚ) (email : String) (now : Nat) (st : TrackerState)
    (h0 : 0 ≤ r) (h1 : r < 1) :
    700 ≤ delayMs r ∧ delayMs r < 1200 ∧
      (mockLoginEvents r email now st).head? =
        some (Event.sleepFor (delayMs r)) ∧
      Event.checkLock ∈ (mockLoginEvents r email now st).tail ∧
      (st.lockedUntil ≤ now →
        Event.checkCredentials (toLowerCase email) ∈
          (mockLoginEvents r email now st).tail) := by
  refine ⟨?_, ?_, rfl, ?_, ?_⟩
  · unfold delayMs; nlinarith
  · unfold delayMs; nlinarith
  · simp [mockLoginEvents]
  · intro hle
    have h : ¬ now < st.lockedUntil := Nat.not_lt.mpr hle
    simp [mockLoginEvents, h]

/-- Witness for C7: the draw `1/2` gives a latency of 950 ms, inside
`[700, 1200)`, and the sleep event heads the step sequence. -/
theorem delay_in_range_and_awaited_first_witness :
    (0 : ℚ) ≤ 1 / 2 ∧ (1 / 2 : ℚ) < 1 ∧
      700 ≤ delayMs (1 / 2) ∧ delayMs (1 / 2) < 1200 ∧
      (mockLoginEvents (1 / 2) "a@b.cc" 5 ⟨0, 0⟩).head? =
        some (Event.sleepFor (delayMs (1 / 2))) :=
  ⟨by norm_num, by norm_num,
    (delay_in_range_and_awaited_first (1 / 2) "a@b.cc" 5 ⟨0, 0⟩
        (by norm_num) (by norm_num)).1,
    (delay_in_range_and_awaited_first (1 / 2) "a@b.cc" 5 ⟨0, 0⟩
        (by norm_num) (by norm_num)).2.1,
    (delay_in_range_and_awaited_first (1 / 2) "a@b.cc" 5 ⟨0, 0⟩
        (by norm_num) (by norm_num)).2.2.1⟩

/-- C1: from an unlocked state with a zero failure counter, four
consecutive wrong attempts each return the `INVALID_CREDENTIALS`
failure and step the counter 0 → 1 → 2 → 3 → 4 without touching
`lockedUntil`; the fifth wrong attempt returns the `LOCKED` failure
with the newly-locked message, sets `lockedUntil` to its clock reading
plus 30000 ms, and resets the counter to 0, so `isLocked` holds for
the following 30 seconds. Each attempt `i` reads the clock at `aᵢ`
(lock check) and `bᵢ` (lock trigger); being unlocked at each attempt
is `L ≤ aᵢ` where `L` is the initial `lockedUntil`. -/
theorem fifth_wrong_attempt_locks
    (db : DemoDB) (email password : String) (L : Nat)
    (a1 b1 a2 b2 a3 b3 a4 b4 a5 b5 : Nat)
    (d1 d2 d3 d4 d5 : Nat × Nat)
    (hc : credCorrect db email password = false)
    (hu1 : L ≤ a1) (hu2 : L ≤ a2) (hu3 : L ≤ a3) (hu4 : L ≤ a4)
    (hu5 : L ≤ a5) :
    mockLogin db email password a1 b1 d1 ⟨0, L⟩ =
      (LoginResponse.err Code.INVALID_CREDENTIALS invalidCredsMsg, ⟨1, L⟩) ∧
    mockLogin db email password a2 b2 d2 ⟨1, L⟩ =
      (LoginResponse.err Code.INVALID_CREDENTIALS invalidCredsMsg, ⟨2, L⟩) ∧
    mockLogin db email password a3 b3 d3 ⟨2, L⟩ =
      (LoginResponse.err Code.INVALID_CREDENTIALS invalidCredsMsg, ⟨3, L⟩) ∧
    mockLogin db email password a4 b4 d4 ⟨3, L⟩ =
      (LoginResponse.err Code.INVALID_CREDENTIALS invalidCredsMsg, ⟨4, L⟩) ∧
    mockLogin db email password a5 b5 d5 ⟨4, L⟩ =
      (LoginResponse.err Code.LOCKED newlyLockedMsg, ⟨0, b5 + 30000⟩) ∧
    (∀ t, t < b5 + 30000 → isLocked t ⟨0, b5 + 30000⟩ = true) := by
  have n1 : ¬ a1 < (TrackerState.mk 0 L).lockedUntil := Nat.not_lt.mpr hu1
  have n2 : ¬ a2 < (TrackerState.mk 1 L).lockedUntil := Nat.not_lt.mpr hu2
  have n3 : ¬ a3 < (TrackerState.mk 2 L).lockedUntil := Nat.not_lt.mpr hu3
  have n4 : ¬ a4 < (TrackerState.mk 3 L).lockedUntil := Nat.not_lt.mpr hu4
  have n5 : ¬ a5 < (TrackerState.mk 4 L).lockedUntil := Nat.not_lt.mpr hu5
  refine ⟨?_, ?_, ?_, ?_, ?_, ?_⟩
  · simp [mockLogin, n1, hc]
  · simp [mockLogin, n2, hc]
  · simp [mockLogin, n3, hc]
  · simp [mockLogin, n4, hc]
  · simp [mockLogin, n5, hc]
  · intro t ht
    simp [isLocked, ht]

/-- Witness for C1: five consecutive wrong attempts for an email not
in the demo directory, made at seconds 0 through 4, lock the tracker
until 30004. -/
theorem fifth_wrong_attempt_locks_witness :
    credCorrect DEMO_DB "user@demo.io" "x" = false ∧
      mockLogin DEMO_DB "user@demo.io" "x" 0 0 (0, 0) ⟨0, 0⟩ =
        (LoginResponse.err Code.INVALID_CREDENTIALS invalidCredsMsg,
          ⟨1, 0⟩) ∧
      mockLogin DEMO_DB "user@demo.io" "x" 4 4 (0, 0) ⟨4, 0⟩ =
        (LoginResponse.err Code.LOCKED newlyLockedMsg, ⟨0, 30004⟩) := by
  have h := fifth_wrong_attempt_locks DEMO_DB "user@demo.io" "x" 0
    0 0 1 1 2 2 3 3 4 4 (0, 0) (0, 0) (0, 0) (0, 0) (0, 0)
    (by decide) (by decide) (by decide) (by decide) (by decide) (by decide)
  exact ⟨by decide, h.1, h.2.2.2.2.1⟩

/-! ### Token-generation lemmas -/

/-- A draw expansion has exactly `n` digit positions. -/
theorem length_fracDigits (n : Nat) : ∀ k, (fracDigits n k).length = n := by
  induction n with
  | zero => intro k; rfl
  | succ n ih => intro k; simp [fracDigits, ih]

/-- Every digit of a draw expansion is below 36. -/
theorem fracDigits_lt_36 (n : Nat) :
    ∀ k, ∀ d ∈ fracDigits n k, d < 36 := by
  induction n with
  | zero => intro k d hd; simp [fracDigits] at hd
  | succ n ih =>
    intro k d hd
    simp only [fracDigits, List.mem_append, List.mem_singleton] at hd
    rcases hd with hd | hd
    · exact ih _ d hd
    · omega

/-- Decoding the `n`-digit expansion of `k < 36 ^ n` recovers `k`. -/
theorem ofDigits36_fracDigits (n : Nat) :
    ∀ k, k < 36 ^ n → ofDigits36 (fracDigits n k) = k := by
  induction n with
  | zero =>
    intro k hk
    interval_cases k
    rfl
  | succ n ih =>
    intro k hk
    have hdiv : k / 36 < 36 ^ n := by
      rw [Nat.div_lt_iff_lt_mul (by norm_num)]
      calc k < 36 ^ (n + 1) := hk
        _ = 36 ^ n * 36 := by rw [pow_succ]
    have := ih (k / 36) hdiv
    simp only [fracDigits, ofDigits36, List.foldl_append, List.foldl_cons,
      List.foldl_nil] at this ⊢
    rw [this]
    omega

/-- Normalizing a draw keeps the numerator below its power bound. -/
theorem normDraw_bound (n : Nat) :
    ∀ k, k < 36 ^ n → (normDraw n k).2 < 36 ^ (normDraw n k).1 := by
  induction n with
  | zero => intro k hk; exact hk
  | succ n ih =>
    intro k hk
    by_cases h : k % 36 = 0
    · have hdiv : k / 36 < 36 ^ n := by
        rw [Nat.div_lt_iff_lt_mul (by norm_num)]
        calc k < 36 ^ (n + 1) := hk
          _ = 36 ^ n * 36 := by rw [pow_succ]
      simpa [normDraw, h] using ih (k / 36) hdiv
    · simpa [normDraw, h] using hk

/-- Normalizing a draw does not change the value it denotes. -/
theorem drawVal_normDraw (n : Nat) :
    ∀ k, drawVal (normDraw n k) = drawVal (n, k) := by
  induction n with
  | zero => intro k; rfl
  | succ n ih =>
    intro k
    by_cases h : k % 36 = 0
    · obtain ⟨m, hm⟩ : (36 : Nat) ∣ k := Nat.dvd_of_mod_eq_zero h
      subst hm
      have hq : 36 * m / 36 = m := Nat.mul_div_cancel_left m (by norm_num)
      rw [normDraw, if_pos h, hq, ih m]
      show (m : ℚ) / 36 ^ n = ((36 * m : Nat) : ℚ) / 36 ^ (n + 1)
      push_cast
      rw [pow_succ]
      field_simp
      ring
    · rw [normDraw, if_neg h]

/-- A draw denotes a value below 1 exactly when its numerator is below
the power bound. -/
theorem drawVal_lt_one_iff (n k : Nat) :
    drawVal (n, k) < 1 ↔ k < 36 ^ n := by
  unfold drawVal
  rw [div_lt_one (by positivity)]
  norm_cast

/-- A draw denotes a positive value exactly when its numerator is
positive. -/
theorem drawVal_pos_iff (n k : Nat) : 0 < drawVal (n, k) ↔ 0 < k := by
  unfold drawVal
  constructor
  · intro h
    by_contra hk
    have : k = 0 := by omega
    subst this
    simp at h
  · intro h
    apply div_pos _ (by positivity)
    exact_mod_cast h

/-- The base-36 digit characters are injective on digits. -/
theorem digitChar36_inj_fin :
    ∀ p q : Fin 36, digitChar36 p.val = digitChar36 q.val → p = q := by decide

/-- The base-36 digit characters are injective below 36. -/
theorem digitChar36_inj (d e : Nat) (hd : d < 36) (he : e < 36)
    (h : digitChar36 d = digitChar36 e) : d = e :=
  congrArg Fin.val (digitChar36_inj_fin ⟨d, hd⟩ ⟨e, he⟩ h)

/-- Digit lists below 36 that print to the same characters are equal. -/
theorem map_digitChar36_inj :
    ∀ l1 l2 : List Nat, (∀ d ∈ l1, d < 36) → (∀ d ∈ l2, d < 36) →
      l1.map digitChar36 = l2.map digitChar36 → l1 = l2 := by
  intro l1
  induction l1 with
  | nil =>
    intro l2 _ _ h
    cases l2 with
    | nil => rfl
    | cons b t => simp at h
  | cons a t ih =>
    intro l2 hb1 hb2 h
    cases l2 with
    | nil => simp at h
    | cons b t2 =>
      simp only [List.map_cons, List.cons.injEq] at h
      have ha : a = b := digitChar36_inj a b
        (hb1 a (List.mem_cons_self a t)) (hb2 b (List.mem_cons_self b t2)) h.1
      have ht : t = t2 := ih t2
        (fun d hd => hb1 d (List.mem_cons_of_mem a hd))
        (fun d hd => hb2 d (List.mem_cons_of_mem b hd)) h.2
      rw [ha, ht]

/-- Tokens printed from draws in `[0, 1)` determine the draws' values:
the exact expansion ends at its last nonzero digit, so equal tokens
mean equal values. -/
theorem tokenOfDraw_inj (d1 d2 : Nat × Nat)
    (h1 : drawVal d1 < 1) (h2 : drawVal d2 < 1)
    (h : tokenOfDraw d1 = tokenOfDraw d2) : drawVal d1 = drawVal d2 := by
  obtain ⟨n1, k1⟩ := d1
  obtain ⟨n2, k2⟩ := d2
  have hb1 : k1 < 36 ^ n1 := (drawVal_lt_one_iff n1 k1).mp h1
  have hb2 : k2 < 36 ^ n2 := (drawVal_lt_one_iff n2 k2).mp h2
  have hp := normDraw_bound n1 k1 hb1
  have hq := normDraw_bound n2 k2 hb2
  have hv1 := drawVal_normDraw n1 k1
  have hv2 := drawVal_normDraw n2 k2
  rw [← hv1, ← hv2]
  unfold tokenOfDraw at h
  simp only at h
  by_cases hz1 : (normDraw n1 k1).2 = 0 <;>
    by_cases hz2 : (normDraw n2 k2).2 = 0
  · unfold drawVal
    rw [hz1, hz2]
    simp
  · rw [if_pos hz1, if_neg hz2] at h
    have hdata := congrArg String.data h
    simp only [String.data] at hdata
    have : fracDigits (normDraw n2 k2).1 (normDraw n2 k2).2 = [] :=
      List.map_eq_nil_iff.mp hdata.symm
    have hlen := length_fracDigits (normDraw n2 k2).1 (normDraw n2 k2).2
    rw [this] at hlen
    simp at hlen
    rw [← hlen] at hq
    simp at hq
    exact absurd hq hz2
  · rw [if_neg hz1, if_pos hz2] at h
    have hdata := congrArg String.data h
    simp only [String.data] at hdata
    have : fracDigits (normDraw n1 k1).1 (normDraw n1 k1).2 = [] :=
      List.map_eq_nil_iff.mp hdata
    have hlen := length_fracDigits (normDraw n1 k1).1 (normDraw n1 k1).2
    rw [this] at hlen
    simp at hlen
    rw [← hlen] at hp
    simp at hp
    exact absurd hp hz1
  · rw [if_neg hz1, if_neg hz2] at h
    have hdata := congrArg String.data h
    simp only [String.data] at hdata
    have hfd := map_digitChar36_inj _ _
      (fracDigits_lt_36 (normDraw n1 k1).1 (normDraw n1 k1).2)
      (fracDigits_lt_36 (normDraw n2 k2).1 (normDraw n2 k2).2) hdata
    have hn : (normDraw n1 k1).1 = (normDraw n2 k2).1 := by
      have := congrArg List.length hfd
      rwa [length_fracDigits, length_fracDigits] at this
    have hk : (normDraw n1 k1).2 = (normDraw n2 k2).2 := by
      have := congrArg ofDigits36 hfd
      rwa [ofDigits36_fracDigits _ _ hp, ofDigits36_fracDigits _ _ hq] at this
    unfold drawVal
    rw [hn, hk]

/-- A draw with value in `(0, 1)` prints to a nonempty token. -/
theorem tokenOfDraw_ne_empty (d : Nat × Nat)
    (h0 : 0 < drawVal d) (h1 : drawVal d < 1) : tokenOfDraw d ≠ "" := by
  obtain ⟨n, k⟩ := d
  have hb : k < 36 ^ n := (drawVal_lt_one_iff n k).mp h1
  have hp := normDraw_bound n k hb
  have hv := drawVal_normDraw n k
  have hz : (normDraw n k).2 ≠ 0 := by
    intro hzero
    rw [← hv] at h0
    unfold drawVal at h0
    rw [hzero] at h0
    simp at h0
  have hn : (normDraw n k).1 ≠ 0 := by
    intro hzero
    rw [hzero] at hp
    simp at hp
    exact hz hp
  unfold tokenOfDraw
  simp only [if_neg hz]
  intro he
  have hdata := congrArg String.data he
  simp only [String.data] at hdata
  have : fracDigits (normDraw n k).1 (normDraw n k).2 = [] :=
    List.map_eq_nil_iff.mp hdata
  have hlen := length_fracDigits (normDraw n k).1 (normDraw n k).2
  rw [this] at hlen
  exact hn hlen.symm

/-- On the success path, the returned token is the one printed from
the supplied random draw. -/
theorem ok_result_token (db : DemoDB) (email password : String)
    (now lockNow : Nat) (draw : Nat × Nat) (st : TrackerState) (t : String)
    (h : (mockLogin db email password now lockNow draw st).1 =
      LoginResponse.ok t) : t = tokenOfDraw draw := by
  by_cases h1 : now < st.lockedUntil
  · simp [mockLogin, h1] at h
  · by_cases h2 : credCorrect db email password = false
    · by_cases h3 : 5 ≤ st.attemptCounter + 1
      · simp [mockLogin, h1, h2, h3] at h
      · simp [mockLogin, h1, h2, h3] at h
    · simp [mockLogin, h1, h2] at h
      exact h.symm

/-- C3 counterexample: the zero draw is a legal `Math.random()` value
(`drawVal (0, 0) = 0 ∈ [0, 1)`), and with it a correct, unlocked
attempt returns `Success` whose token is the EMPTY string, because
`(0).toString(36) = "0"` and `"0".slice(2) = ""`. -/
theorem success_token_can_be_empty :
    drawVal (0, 0) = 0 ∧
      (mockLogin DEMO_DB "mock@email.com" "Password123" 0 0 (0, 0)
          ⟨0, 0⟩).1 = LoginResponse.ok "" := by
  constructor
  · norm_num [drawVal]
  · decide

/-- C3 (amended): a correct credential pair on an unlocked tracker
always resets `consecutiveFailures` to 0 and returns `Success` with
the token printed from the random draw; that token is nonempty
whenever the draw's value is nonzero (it is empty exactly for the
zero draw). -/
theorem correct_credentials_reset_and_token
    (db : DemoDB) (email password : String) (now lockNow : Nat)
    (draw : Nat × Nat) (st : TrackerState)
    (hnl : st.lockedUntil ≤ now)
    (hc : credCorrect db email password = true) :
    (mockLogin db email password now lockNow draw st).1 =
        LoginResponse.ok (tokenOfDraw draw) ∧
      (mockLogin db email password now lockNow draw st).2.attemptCounter = 0 ∧
      (0 < drawVal draw → drawVal draw < 1 → tokenOfDraw draw ≠ "") := by
  have h1 : ¬ now < st.lockedUntil := Nat.not_lt.mpr hnl
  refine ⟨by simp [mockLogin, h1, hc], by simp [mockLogin, h1, hc], ?_⟩
  exact tokenOfDraw_ne_empty draw

/-- Witness for C3 (amended): the draw `(1, 1)` (value `1/36`) at a
correct attempt yields the nonempty token `"1"` and a zero counter. -/
theorem correct_credentials_reset_and_token_witness :
    (TrackerState.mk 3 5).lockedUntil ≤ 10 ∧
      credCorrect DEMO_DB "mock@email.com" "Password123" = true ∧
      (mockLogin DEMO_DB "mock@email.com" "Password123" 10 11 (1, 1)
          ⟨3, 5⟩).1 = LoginResponse.ok (tokenOfDraw (1, 1)) ∧
      (mockLogin DEMO_DB "mock@email.com" "Password123" 10 11 (1, 1)
          ⟨3, 5⟩).2.attemptCounter = 0 ∧
      tokenOfDraw (1, 1) ≠ "" := by
  have h := correct_credentials_reset_and_token DEMO_DB "mock@email.com"
    "Password123" 10 11 (1, 1) ⟨3, 5⟩ (by decide) (by decide)
  exact ⟨by decide, by decide, h.1, h.2.1,
    h.2.2 (by norm_num [drawVal]) (by norm_num [drawVal])⟩

/-- C8: two successful calls whose random draws denote distinct values
in `[0, 1)` return distinct token strings. -/
theorem distinct_draws_give_distinct_tokens
    (db : DemoDB) (email password : String) (now lockNow : Nat)
    (st : TrackerState) (d1 d2 : Nat × Nat) (t1 t2 : String)
    (hv1 : drawVal d1 < 1) (hv2 : drawVal d2 < 1)
    (hne : drawVal d1 ≠ drawVal d2)
    (h1 : (mockLogin db email password now lockNow d1 st).1 =
      LoginResponse.ok t1)
    (h2 : (mockLogin db email password now lockNow d2 st).1 =
      LoginResponse.ok t2) :
    t1 ≠ t2 := by
  rw [ok_result_token db email password now lockNow d1 st t1 h1,
    ok_result_token db email password now lockNow d2 st t2 h2]
  intro he
  exact hne (tokenOfDraw_inj d1 d2 hv1 hv2 he)

/-- Witness for C8: the draws `1/36` and `2/36` both lie in `[0, 1)`,
differ, and produce the distinct tokens `"1"` and `"2"` on two
successful demo logins. -/
theorem distinct_draws_give_distinct_tokens_witness :
    drawVal (1, 1) < 1 ∧ drawVal (1, 2) < 1 ∧
      drawVal (1, 1) ≠ drawVal (1, 2) ∧
      (mockLogin DEMO_DB "mock@email.com" "Password123" 0 0 (1, 1)
          ⟨0, 0⟩).1 = LoginResponse.ok "1" ∧
      (mockLogin DEMO_DB "mock@email.com" "Password123" 0 0 (1, 2)
          ⟨0, 0⟩).1 = LoginResponse.ok "2" ∧
      ("1" : String) ≠ "2" :=
  ⟨by norm_num [drawVal], by norm_num [drawVal], by norm_num [drawVal],
    by decide, by decide,
    distinct_draws_give_distinct_tokens DEMO_DB "mock@email.com"
      "Password123" 0 0 ⟨0, 0⟩ (1, 1) (1, 2) "1" "2"
      (by norm_num [drawVal]) (by norm_num [drawVal])
      (by norm_num [drawVal]) (by decide) (by decide)⟩

end LoginForm
